/-
  Verification of the s3-upload-share Upload & Metadata Engine.

  Shallow embedding of:
    - src/services/fileService.js  (FileService: in-memory metadata index)
    - src/services/s3Service.js    (S3Service.uploadFile: validation + key derivation + put)
    - uploadController (uploadSingle / uploadMultiple, source listed in README)

  JavaScript `Map` objects are modelled as insertion-ordered association lists
  (`set` updates in place keeping the position, or appends; `values()` iterates
  in insertion order), timestamps as `Nat` (milliseconds), and thrown
  `AppError`s as `Except AppError`.
-/
import Mathlib

namespace S3UploadShare

/-! ### JavaScript `Map` semantics over association lists -/

/-- `Map.get(k)`: first binding of `k`, if any. -/
def mapGet (m : List (String × α)) (k : String) : Option α :=
  (m.find? (fun p => p.1 == k)).map (·.2)

/-- `Map.has(k)`. -/
def mapHas (m : List (String × α)) (k : String) : Bool :=
  m.any (fun p => p.1 == k)

/-- `Map.set(k, v)`: replace in place (keeping insertion position) when the key
exists, otherwise append. -/
def mapSet (m : List (String × α)) (k : String) (v : α) : List (String × α) :=
  if mapHas m k then m.map (fun p => if p.1 == k then (k, v) else p)
  else m ++ [(k, v)]

/-- `Map.delete(k)`: remove the binding; the `Bool` result of the JS call is
`mapHas m k` and is returned separately by callers. -/
def mapDelete (m : List (String × α)) (k : String) : List (String × α) :=
  m.filter (fun p => p.1 != k)

/-! ### Data model -/

/-- One file-metadata record, as stored in `FileService.files`
(fields assembled by `saveFileMetadata` from the controller's metadata). -/
structure FileRecord where
  fileId : String
  originalName : String
  mimeType : String
  size : Nat
  s3Key : String
  s3Location : String
  userId : String
  uploadedAt : Nat
  createdAt : Nat
  updatedAt : Nat
  accessCount : Nat
  lastAccessed : Option Nat
  deriving Repr, DecidableEq

/-- One entry of the share-activity log (`logShareActivity`). -/
structure ShareActivityEntry where
  sharedAt : Nat
  expiresIn : Nat
  expiresAt : Nat
  deriving Repr, DecidableEq

/-- The mutable state of the `FileService` singleton: three JS `Map`s. -/
structure FileServiceState where
  files : List (String × FileRecord)
  accessStats : List (String × Nat)
  shareActivity : List (String × List ShareActivityEntry)
  deriving Repr, DecidableEq

def emptyFS : FileServiceState := ⟨[], [], []⟩

/-! ### FileService operations (src/services/fileService.js) -/

/-- `saveFileMetadata(metadata)`: spreads the caller-supplied metadata and then
sets `createdAt`, `updatedAt`, `accessCount`, `lastAccessed`, so these four
always take the freshly computed values; stores under `metadata.fileId` with
`Map.set` (which overwrites any existing binding). Returns the stored record.
Never throws (the body cannot fail). -/
def saveFileMetadata (st : FileServiceState) (metadata : FileRecord) (now : Nat) :
    FileServiceState × FileRecord :=
  let fileRecord := { metadata with
    createdAt := now
    updatedAt := now
    accessCount := 0
    lastAccessed := none }
  ({ st with files := mapSet st.files metadata.fileId fileRecord }, fileRecord)

/-- `getFileMetadata(fileId)`: the record, or `null` when absent. -/
def getFileMetadata (st : FileServiceState) (fileId : String) : Option FileRecord :=
  mapGet st.files fileId

/-- `updateAccessStats(fileId)`: when the record exists, bump `accessCount`,
set `lastAccessed` and `updatedAt` to now; silently do nothing when absent.
Errors are swallowed (`// Don't throw error for stats update failure`), so the
operation is total on the state. -/
def updateAccessStats (st : FileServiceState) (fileId : String) (now : Nat) :
    FileServiceState :=
  match mapGet st.files fileId with
  | none => st
  | some metadata =>
      let metadata' := { metadata with
        accessCount := metadata.accessCount + 1
        lastAccessed := some now
        updatedAt := now }
      { st with files := mapSet st.files fileId metadata' }

/-- `deleteFileMetadata(fileId)`: `files.delete` (whose boolean result is
returned), and unconditionally `accessStats.delete` / `shareActivity.delete`. -/
def deleteFileMetadata (st : FileServiceState) (fileId : String) :
    FileServiceState × Bool :=
  ({ files := mapDelete st.files fileId
     accessStats := mapDelete st.accessStats fileId
     shareActivity := mapDelete st.shareActivity fileId },
   mapHas st.files fileId)

/-- `logShareActivity(fileId, expiresIn)`: pushes one entry onto the fileId's
activity array (created on demand); `expiresAt = Date.now() + expiresIn*1000`.
Errors are swallowed, so the operation is total. -/
def logShareActivity (st : FileServiceState) (fileId : String)
    (expiresIn : Nat) (now : Nat) : FileServiceState :=
  let activity := (mapGet st.shareActivity fileId).getD []
  let activity' := activity ++ [⟨now, expiresIn, now + expiresIn * 1000⟩]
  { st with shareActivity := mapSet st.shareActivity fileId activity' }

/-! ### listFiles (src/services/fileService.js, lines 88-138) -/

/-- JS `a.includes(b)`: `b` occurs as a contiguous substring of `a`. -/
def includesJS (a b : String) : Bool :=
  decide (b.toList <:+: a.toList)

/-- One item of the `listFiles` response (`paginatedFiles.map(...)`). -/
structure FileListItem where
  fileId : String
  filename : String
  mimeType : String
  size : Nat
  uploadedAt : Nat
  accessCount : Nat
  lastAccessed : Option Nat
  deriving Repr, DecidableEq

def toListItem (f : FileRecord) : FileListItem :=
  ⟨f.fileId, f.originalName, f.mimeType, f.size, f.uploadedAt, f.accessCount, f.lastAccessed⟩

/-- The `listFiles` response shape. -/
structure ListFilesResult where
  files : List FileListItem
  page : Nat
  limit : Nat
  total : Nat
  pages : Nat
  hasNext : Bool
  hasPrev : Bool
  deriving Repr, DecidableEq

/-- The two filters of `listFiles`: MIME-type substring when `type` given, then
case-insensitive filename substring when `search` given (absent query fields
are modelled as `none`; JS treats them as falsy and skips the filter). -/
def filterFiles (files : List FileRecord) (type? search? : Option String) :
    List FileRecord :=
  let files := match type? with
    | none => files
    | some t => files.filter (fun file => includesJS file.mimeType t)
  match search? with
  | none => files
  | some s => files.filter (fun file =>
      includesJS file.originalName.toLower s.toLower)

/-- The comparator `(a, b) => new Date(b.uploadedAt) - new Date(a.uploadedAt)`:
`a` may precede `b` iff `b.uploadedAt ≤ a.uploadedAt`. JS `Array.prototype.sort`
is stable, as is `List.mergeSort`. -/
def uploadedDescLE (a b : FileRecord) : Bool :=
  b.uploadedAt ≤ a.uploadedAt

def sortFiles (files : List FileRecord) : List FileRecord :=
  files.mergeSort uploadedDescLE

/-- The filtered, sorted view `listFiles` paginates:
`Array.from(this.files.values())`, the two filters, then the stable sort. -/
def visibleFiles (st : FileServiceState) (type? search? : Option String) :
    List FileRecord :=
  sortFiles (filterFiles (st.files.map (·.2)) type? search?)

/-- `listFiles({page, limit, type, search})`. `page` and `limit` are positive
(defaults 1 and 20; the model uses `Nat`, and `(total + limit - 1) / limit` is
`Math.ceil(total / limit)` for `limit ≥ 1`). `slice(startIndex, endIndex)`
is `drop`-then-`take`. -/
def listFiles (st : FileServiceState) (page limit : Nat)
    (type? search? : Option String) : ListFilesResult :=
  let sorted := visibleFiles st type? search?
  let total := sorted.length
  let startIndex := (page - 1) * limit
  let paginatedFiles := (sorted.drop startIndex).take limit
  let pages := (total + limit - 1) / limit
  { files := paginatedFiles.map toListItem
    page := page
    limit := limit
    total := total
    pages := pages
    hasNext := page < pages
    hasPrev := 1 < page }

/-- `getUploadStats().overview.totalFiles` — the part of `stats()` that the
claims observe: the number of records in the index. -/
def statsTotalFiles (st : FileServiceState) : Nat :=
  (st.files.map (·.2)).length

/-- `getUploadStats().overview.totalSize`. -/
def statsTotalSize (st : FileServiceState) : Nat :=
  ((st.files.map (·.2)).map (·.size)).sum

/-! ### S3Service.uploadFile (src/services/s3Service.js) -/

/-- A thrown `AppError(message, statusCode)`. -/
structure AppError where
  message : String
  statusCode : Nat
  deriving Repr, DecidableEq

/-- A multer upload (`req.file`): declared name, declared MIME type, size, and
the content type that `FileType.fromFile` sniffs from its bytes (`none` when
the library cannot detect a type). -/
structure UploadedFile where
  originalname : String
  mimetype : String
  size : Nat
  sniffedType : Option String
  deriving Repr, DecidableEq

/-- A stored S3 object, as far as the claims observe it. -/
structure S3Object where
  contentType : String
  userId : String
  fileId : String
  originalName : String
  deriving Repr, DecidableEq

/-- The object store: key-indexed objects. -/
structure S3State where
  objects : List (String × S3Object)
  deriving Repr, DecidableEq

def emptyS3 : S3State := ⟨[]⟩

/-- The `result` of `s3.upload(...)` as the controller consumes it. -/
structure S3UploadResult where
  key : String
  location : String
  deriving Repr, DecidableEq

/-- The storage key: `` `uploads/${userId}/${fileId}-${file.originalname}` ``
— the declared filename is interpolated verbatim. -/
def storageKey (userId fileId originalname : String) : String :=
  "uploads/" ++ userId ++ "/" ++ fileId ++ "-" ++ originalname

/-- The body of `uploadFile`'s `try` block: sniff the real content type and
throw `AppError('File type validation failed', 400)` when it is defined and
differs from the declared type; otherwise derive the key and put the object
(the S3 transport is modelled as succeeding; transport failure is external
nondeterminism outside the embedding). -/
def uploadFileTry (s3 : S3State) (file : UploadedFile) (fileId userId : String) :
    Except AppError (S3State × S3UploadResult) := do
  match file.sniffedType with
  | some actual =>
      if actual ≠ file.mimetype then
        throw ⟨"File type validation failed", 400⟩
  | none => pure ()
  let key := storageKey userId fileId file.originalname
  let obj : S3Object := ⟨file.mimetype, userId, fileId, file.originalname⟩
  pure ({ objects := mapSet s3.objects key obj },
        { key := key, location := "https://" ++ key })

/-- `uploadFile` as callers see it: the `catch` block rewraps every error —
including the 400 validation `AppError` — as
`AppError('File upload failed: ' + error.message, 500)`. -/
def uploadFile (s3 : S3State) (file : UploadedFile) (fileId userId : String) :
    Except AppError (S3State × S3UploadResult) :=
  match uploadFileTry s3 file fileId userId with
  | .error e => .error ⟨"File upload failed: " ++ e.message, 500⟩
  | .ok r => .ok r

/-! ### UploadController (uploadSingle / uploadMultiple) -/

/-- The metadata object `uploadSingle`/`uploadMultiple` pass to
`saveFileMetadata` (the remaining `FileRecord` fields are the ones
`saveFileMetadata` itself overwrites, left at their defaults here). -/
def controllerMetadata (file : UploadedFile) (fileId : String)
    (result : S3UploadResult) (userId : String) (now : Nat) : FileRecord :=
  { fileId := fileId
    originalName := file.originalname
    mimeType := file.mimetype
    size := file.size
    s3Key := result.key
    s3Location := result.location
    userId := userId
    uploadedAt := now
    createdAt := 0
    updatedAt := 0
    accessCount := 0
    lastAccessed := none }

/-- The success payload of `uploadSingle` (and one entry of
`uploadMultiple`'s `uploaded` list). -/
structure UploadedItem where
  fileId : String
  filename : String
  mimeType : String
  size : Nat
  url : String
  deriving Repr, DecidableEq

/-- One entry of `uploadMultiple`'s `failed` list. -/
structure FailedItem where
  filename : String
  error : String
  deriving Repr, DecidableEq

/-- `uploadSingle`: run `s3Service.uploadFile`; on success save the metadata
record and respond 201; on any error, pass it to `next(error)` leaving both
states untouched. The pair of states is returned alongside the outcome so
that state (non-)mutation is observable. -/
def uploadSingle (s3 : S3State) (fs : FileServiceState) (file : UploadedFile)
    (fileId userId : String) (now : Nat) :
    S3State × FileServiceState × Except AppError UploadedItem :=
  match uploadFile s3 file fileId userId with
  | .error e => (s3, fs, .error e)
  | .ok (s3', result) =>
      let (fs', _) := saveFileMetadata fs
        (controllerMetadata file fileId result userId now) now
      (s3', fs',
       .ok ⟨fileId, file.originalname, file.mimetype, file.size, result.location⟩)

/-- The `for (const file of req.files)` loop of `uploadMultiple`: each file
(paired with its fresh `uuidv4()` id) goes through `uploadFile` +
`saveFileMetadata`; a per-file failure is caught, recorded as
`{filename, error}` in `failed`, and the loop continues with the next file.
Returns the final states and the `uploaded` / `failed` lists in order. -/
def uploadMultipleLoop (userId : String) (now : Nat) :
    S3State → FileServiceState → List (UploadedFile × String) →
    S3State × FileServiceState × List UploadedItem × List FailedItem
  | s3, fs, [] => (s3, fs, [], [])
  | s3, fs, (file, fileId) :: rest =>
      match uploadFile s3 file fileId userId with
      | .ok (s3', result) =>
          let (fs', _) := saveFileMetadata fs
            (controllerMetadata file fileId result userId now) now
          let (s3'', fs'', uploaded, failed) :=
            uploadMultipleLoop userId now s3' fs' rest
          (s3'', fs'',
           ⟨fileId, file.originalname, file.mimetype, file.size, result.location⟩
             :: uploaded,
           failed)
      | .error e =>
          let (s3'', fs'', uploaded, failed) :=
            uploadMultipleLoop userId now s3 fs rest
          (s3'', fs'', uploaded, ⟨file.originalname, e.message⟩ :: failed)

/-- The `summary` object of `uploadMultiple`'s response. -/
structure BatchSummary where
  total : Nat
  successful : Nat
  failed : Nat
  deriving Repr, DecidableEq

/-- `uploadMultiple`'s response data. -/
structure BatchOutcome where
  uploaded : List UploadedItem
  failed : List FailedItem
  summary : BatchSummary
  deriving Repr, DecidableEq

/-- `uploadMultiple`: rejects an empty `req.files` with
`AppError('No files provided', 400)`; otherwise runs the per-file loop and
assembles `{uploaded, failed, summary: {total, successful, failed}}` with
`total = req.files.length`. -/
def uploadMultiple (s3 : S3State) (fs : FileServiceState)
    (files : List (UploadedFile × String)) (userId : String) (now : Nat) :
    S3State × FileServiceState × Except AppError BatchOutcome :=
  if files.isEmpty then
    (s3, fs, .error ⟨"No files provided", 400⟩)
  else
    let (s3', fs', uploaded, failed) := uploadMultipleLoop userId now s3 fs files
    (s3', fs',
     .ok { uploaded := uploaded
           failed := failed
           summary := ⟨files.length, uploaded.length, failed.length⟩ })

/-! ### Concrete inputs and states used by witnesses and counterexamples -/

/-- A record template for concrete states. -/
def sampleRecord (id nm mt : String) (t : Nat) : FileRecord :=
  { fileId := id, originalName := nm, mimeType := mt, size := 5,
    s3Key := "k", s3Location := "l", userId := "u", uploadedAt := t,
    createdAt := 0, updatedAt := 0, accessCount := 0, lastAccessed := none }

/-- A one-record concrete index. -/
def oneRecordFS : FileServiceState :=
  ⟨[("a", sampleRecord "a" "n1" "text/plain" 10)], [], []⟩

/-- A three-record index with an `uploadedAt` tie between the two most recent
records (insertion order `"a"`, `"b"`, `"c"`). -/
def threeRecordFS : FileServiceState :=
  ⟨[("a", sampleRecord "a" "n1" "text/plain" 10),
    ("b", sampleRecord "b" "n2" "text/plain" 30),
    ("c", sampleRecord "c" "n3" "image/png" 30)], [], []⟩

/-- A file whose declared type matches its bytes. -/
def goodPng : UploadedFile := ⟨"pic.png", "image/png", 17, some "image/png"⟩

/-- A file declared `image/png` whose bytes sniff as `application/pdf`. -/
def fakePng : UploadedFile := ⟨"fake.png", "image/png", 9, some "application/pdf"⟩

/-! ### Association-list (JS `Map`) lemmas -/

theorem mapGet_mapSet_self (m : List (String × α)) (k : String) (v : α) :
    mapGet (mapSet m k v) k = some v := by
  unfold mapSet
  split
  · rename_i h
    induction m with
    | nil => simp [mapHas] at h
    | cons p m ih =>
        by_cases hp : (p.1 == k) = true
        · unfold mapGet
          rw [List.map_cons, if_pos hp, List.find?_cons]
          simp
        · have hp' : (p.1 == k) = false := by simpa using hp
          simp only [mapHas, List.any_cons, hp', Bool.false_or] at h
          unfold mapGet
          rw [List.map_cons, if_neg hp, List.find?_cons]
          simp only [hp']
          exact ih h
  · induction m with
    | nil => simp [mapGet]
    | cons p m ih =>
        rename_i h
        simp only [mapHas, List.any_cons, Bool.or_eq_true, not_or] at h
        have hp' : (p.1 == k) = false := by
          cases hpk : p.1 == k
          · rfl
          · exact absurd hpk h.1
        unfold mapGet
        rw [List.cons_append, List.find?_cons]
        simp only [hp']
        exact ih (by simp [mapHas, h.2])

theorem mapHas_eq_isSome_mapGet (m : List (String × α)) (k : String) :
    mapHas m k = (mapGet m k).isSome := by
  induction m with
  | nil => rfl
  | cons p m ih =>
      by_cases hp : p.1 == k
      · simp [mapHas, mapGet, List.find?_cons, hp]
      · simp only [Bool.not_eq_true] at hp
        simp [mapHas, mapGet, List.find?_cons, hp, mapHas.eq_def, mapGet.eq_def] at ih ⊢
        exact ih

theorem mapGet_mapDelete_self (m : List (String × α)) (k : String) :
    mapGet (mapDelete m k) k = none := by
  unfold mapGet mapDelete
  rw [Option.map_eq_none', List.find?_eq_none]
  intro p hp
  have := List.of_mem_filter hp
  simp only [bne_iff_ne, ne_eq] at this
  simp [this]

theorem mapHas_mapDelete_self (m : List (String × α)) (k : String) :
    mapHas (mapDelete m k) k = false := by
  rw [mapHas_eq_isSome_mapGet, mapGet_mapDelete_self]
  rfl

theorem length_mapSet (m : List (String × α)) (k : String) (v : α) :
    (mapSet m k v).length =
      if mapHas m k then m.length else m.length + 1 := by
  unfold mapSet
  split <;> simp_all

/-! ### Claim theorems -/

/-- C10: every record created by `saveFileMetadata` starts with
`accessCount = 0`, `lastAccessed = null`, and `createdAt`/`updatedAt` set to
creation time — whatever values the supplied metadata object carried for
those four fields (it is spread first, then overwritten), and the record
stored under `fileId` is exactly that initialized record. -/
theorem saveFileMetadata_initializes (st : FileServiceState)
    (metadata : FileRecord) (now : Nat) :
    (saveFileMetadata st metadata now).2.accessCount = 0 ∧
    (saveFileMetadata st metadata now).2.lastAccessed = none ∧
    (saveFileMetadata st metadata now).2.createdAt = now ∧
    (saveFileMetadata st metadata now).2.updatedAt = now ∧
    mapGet (saveFileMetadata st metadata now).1.files metadata.fileId
      = some (saveFileMetadata st metadata now).2 := by
  refine ⟨rfl, rfl, rfl, rfl, ?_⟩
  exact mapGet_mapSet_self st.files metadata.fileId _

/-- C2 counterexample: `saveFileMetadata` does not fail with a Conflict when
the `fileId` is already present — it silently replaces the existing record.
Saving `fileId = "a"` twice succeeds both times and the second save changes
the stored record (`originalName` becomes `"n2"`). -/
theorem saveFileMetadata_replaces_cex :
    getFileMetadata
        (saveFileMetadata (saveFileMetadata emptyFS (sampleRecord "a" "n1" "text/plain" 10) 100).1
          (sampleRecord "a" "n2" "text/plain" 11) 200).1 "a"
      ≠ getFileMetadata (saveFileMetadata emptyFS (sampleRecord "a" "n1" "text/plain" 10) 100).1 "a" ∧
    (getFileMetadata
        (saveFileMetadata (saveFileMetadata emptyFS (sampleRecord "a" "n1" "text/plain" 10) 100).1
          (sampleRecord "a" "n2" "text/plain" 11) 200).1 "a").map (·.originalName)
      = some "n2" := by
  constructor
  · decide
  · decide

/-- C2 (amended): `saveFileMetadata` never fails and never checks for an
existing record: it upserts — after the call the index maps `fileId` to the
freshly built record, replacing in place (same index size) when the id was
present and appending (size + 1) when it was not. -/
theorem saveFileMetadata_upsert (st : FileServiceState) (metadata : FileRecord)
    (now : Nat) :
    mapGet (saveFileMetadata st metadata now).1.files metadata.fileId
      = some (saveFileMetadata st metadata now).2 ∧
    (saveFileMetadata st metadata now).1.files.length
      = (if mapHas st.files metadata.fileId then st.files.length
         else st.files.length + 1) := by
  exact ⟨mapGet_mapSet_self st.files metadata.fileId _,
         length_mapSet st.files metadata.fileId _⟩

/-- C9: `deleteFileMetadata` is idempotent: the first call reports `true` iff
the record existed, removes the record and its share-activity log, and a
second call on the same id reports `false`. Both calls are total (the model
never reaches the `catch`: `Map.delete` cannot throw). -/
theorem deleteFileMetadata_idempotent (st : FileServiceState) (fileId : String) :
    ((deleteFileMetadata st fileId).2 = true ↔ (getFileMetadata st fileId).isSome) ∧
    getFileMetadata (deleteFileMetadata st fileId).1 fileId = none ∧
    mapGet (deleteFileMetadata st fileId).1.shareActivity fileId = none ∧
    (deleteFileMetadata (deleteFileMetadata st fileId).1 fileId).2 = false := by
  refine ⟨?_, ?_, ?_, ?_⟩
  · rw [show (deleteFileMetadata st fileId).2 = mapHas st.files fileId from rfl,
        mapHas_eq_isSome_mapGet]
    exact ⟨fun h => h ▸ rfl, fun h => h⟩
  · exact mapGet_mapDelete_self st.files fileId
  · exact mapGet_mapDelete_self st.shareActivity fileId
  · exact mapHas_mapDelete_self st.files fileId

/-- C4 counterexample: `logShareActivity` is not a no-op for an unknown
`fileId`: on the empty index (where `"ghost"` has no record) it creates a
share-activity entry and changes the state. -/
theorem logShareActivity_unknown_cex :
    getFileMetadata emptyFS "ghost" = none ∧
    logShareActivity emptyFS "ghost" 60 1000 ≠ emptyFS ∧
    mapGet (logShareActivity emptyFS "ghost" 60 1000).shareActivity "ghost"
      = some [⟨1000, 60, 61000⟩] := by
  refine ⟨rfl, ?_, ?_⟩
  · decide
  · decide

/-- C4 (amended): `logShareActivity` appends exactly one entry
`{sharedAt = now, expiresIn, expiresAt = now + expiresIn·1000}` to the id's
activity list whether or not the `fileId` is present in the file index, and
leaves the file index untouched; it never raises (errors are swallowed). -/
theorem logShareActivity_appends (st : FileServiceState) (fileId : String)
    (expiresIn now : Nat) :
    mapGet (logShareActivity st fileId expiresIn now).shareActivity fileId
      = some ((mapGet st.shareActivity fileId).getD []
          ++ [⟨now, expiresIn, now + expiresIn * 1000⟩]) ∧
    (logShareActivity st fileId expiresIn now).files = st.files := by
  exact ⟨mapGet_mapSet_self st.shareActivity fileId _, rfl⟩

/-- C1: the type-mismatch path of `uploadFile`. The `try` body throws the
intended `AppError('File type validation failed', 400)`, but the function's
`catch` block rewraps it as `AppError('File upload failed: …', 500)` — so the
caller observes a 5xx-equivalent error, not the 4xx-equivalent Validation
error the claim states. Evaluated at a file declared `image/png` whose bytes
sniff as `application/pdf`. -/
theorem uploadFile_mismatch_surfaces_500 :
    uploadFileTry emptyS3 ⟨"x.png", "image/png", 4, some "application/pdf"⟩ "id1" "u"
      = .error ⟨"File type validation failed", 400⟩ ∧
    uploadFile emptyS3 ⟨"x.png", "image/png", 4, some "application/pdf"⟩ "id1" "u"
      = .error ⟨"File upload failed: File type validation failed", 500⟩ := by
  exact ⟨rfl, rfl⟩

/-- C3: the storage key embeds the user-supplied filename verbatim — no
sanitization. Evaluated at the traversal-shaped filename
`"../../etc/passwd"`: the object is stored under
`uploads/u/id-../../etc/passwd`, whose suffix after the fixed
`uploads/<ownerId>/<fileId>-` prefix still contains the path separator. -/
theorem uploadFile_key_not_sanitized :
    (uploadFile emptyS3 ⟨"../../etc/passwd", "text/plain", 4, none⟩ "id" "u").map
        (fun r => r.2.key)
      = .ok "uploads/u/id-../../etc/passwd" ∧
    storageKey "u" "id" "../../etc/passwd"
      = "uploads/u/id-" ++ "../../etc/passwd" ∧
    '/' ∈ "../../etc/passwd".toList := by
  refine ⟨rfl, rfl, ?_⟩
  decide

/-! ### recordAccess (updateAccessStats) -/

theorem updateAccessStats_absent (st : FileServiceState) (fileId : String)
    (now : Nat) (h : getFileMetadata st fileId = none) :
    updateAccessStats st fileId now = st := by
  simp only [getFileMetadata] at h
  unfold updateAccessStats
  rw [h]

theorem updateAccessStats_present (st : FileServiceState) (fileId : String)
    (now : Nat) (m : FileRecord) (h : getFileMetadata st fileId = some m) :
    getFileMetadata (updateAccessStats st fileId now) fileId
      = some { m with accessCount := m.accessCount + 1,
                      lastAccessed := some now, updatedAt := now } := by
  simp only [getFileMetadata] at h ⊢
  unfold updateAccessStats
  rw [h]
  exact mapGet_mapSet_self st.files fileId _

theorem foldl_updateAccessStats (fileId : String) :
    ∀ (times : List Nat) (st : FileServiceState) (m : FileRecord),
      getFileMetadata st fileId = some m →
      (getFileMetadata (times.foldl (fun s t => updateAccessStats s fileId t) st)
          fileId).map (·.accessCount)
        = some (m.accessCount + times.length)
  | [], st, m, h => by simp [h]
  | t :: ts, st, m, h => by
      rw [List.foldl_cons]
      have h' := updateAccessStats_present st fileId t m h
      have := foldl_updateAccessStats fileId ts (updateAccessStats st fileId t) _ h'
      rw [this]
      simp only [List.length_cons, Option.some.injEq]
      show m.accessCount + 1 + ts.length = m.accessCount + (ts.length + 1)
      omega

/-- C8: `updateAccessStats` is a no-op (not an error) when the `fileId` is
absent; when present, one call bumps `accessCount` by exactly one and sets
`lastAccessed`/`updatedAt` to now, and `k` successive calls bump
`accessCount` by exactly `k`. The function is total on the state (the JS
`catch` swallows any failure), so it never propagates an error. -/
theorem updateAccessStats_spec :
    (∀ st fileId now, getFileMetadata st fileId = none →
        updateAccessStats st fileId now = st) ∧
    (∀ st fileId now m, getFileMetadata st fileId = some m →
        getFileMetadata (updateAccessStats st fileId now) fileId
          = some { m with accessCount := m.accessCount + 1,
                          lastAccessed := some now, updatedAt := now }) ∧
    (∀ st fileId (times : List Nat) m, getFileMetadata st fileId = some m →
        (getFileMetadata (times.foldl (fun s t => updateAccessStats s fileId t) st)
            fileId).map (·.accessCount)
          = some (m.accessCount + times.length)) :=
  ⟨updateAccessStats_absent,
   fun st fileId now m h => updateAccessStats_present st fileId now m h,
   fun st fileId times m h => foldl_updateAccessStats fileId times st m h⟩

/-- Witness for C8: the three parts of `updateAccessStats_spec` evaluated on
the empty index, resp. a one-record index, with three accesses at times
5, 7, 9. -/
theorem updateAccessStats_spec_witness :
    (updateAccessStats emptyFS "ghost" 5 = emptyFS) ∧
    (getFileMetadata (updateAccessStats oneRecordFS "a" 55) "a"
      = some { sampleRecord "a" "n1" "text/plain" 10 with
                 accessCount := (sampleRecord "a" "n1" "text/plain" 10).accessCount + 1,
                 lastAccessed := some 55, updatedAt := 55 }) ∧
    ((getFileMetadata
        (([5, 7, 9] : List Nat).foldl (fun s t => updateAccessStats s "a" t) oneRecordFS)
        "a").map (·.accessCount)
      = some ((sampleRecord "a" "n1" "text/plain" 10).accessCount + 3)) :=
  ⟨updateAccessStats_spec.1 emptyFS "ghost" 5 (by decide),
   updateAccessStats_spec.2.1 oneRecordFS "a" 55 _ (by decide),
   updateAccessStats_spec.2.2 oneRecordFS "a" [5, 7, 9] _ (by decide)⟩

/-! ### Validation failure is atomic (uploadSingle) -/

theorem uploadFileTry_mismatch (s3 : S3State) (file : UploadedFile)
    (fileId userId : String) (actual : String)
    (hs : file.sniffedType = some actual) (hne : actual ≠ file.mimetype) :
    uploadFileTry s3 file fileId userId
      = .error ⟨"File type validation failed", 400⟩ := by
  unfold uploadFileTry
  rw [hs]
  simp [hne, Bind.bind, Except.bind, throw, throwThe, MonadExceptOf.throw]

theorem uploadFile_mismatch (s3 : S3State) (file : UploadedFile)
    (fileId userId : String) (actual : String)
    (hs : file.sniffedType = some actual) (hne : actual ≠ file.mimetype) :
    uploadFile s3 file fileId userId
      = .error ⟨"File upload failed: File type validation failed", 500⟩ := by
  unfold uploadFile
  rw [uploadFileTry_mismatch s3 file fileId userId actual hs hne]
  rfl

/-- C7: when the sniffed content type is defined and differs from the declared
MIME type, `uploadSingle` fails before any effect: the object store and the
metadata index are exactly as before, hence `stats()` (file count and total
size) is unchanged. -/
theorem uploadSingle_validation_atomic (s3 : S3State) (fs : FileServiceState)
    (file : UploadedFile) (fileId userId : String) (now : Nat) (actual : String)
    (hs : file.sniffedType = some actual) (hne : actual ≠ file.mimetype) :
    (uploadSingle s3 fs file fileId userId now).1 = s3 ∧
    (uploadSingle s3 fs file fileId userId now).2.1 = fs ∧
    (∃ e, (uploadSingle s3 fs file fileId userId now).2.2 = .error e) ∧
    statsTotalFiles (uploadSingle s3 fs file fileId userId now).2.1
      = statsTotalFiles fs ∧
    statsTotalSize (uploadSingle s3 fs file fileId userId now).2.1
      = statsTotalSize fs := by
  have h := uploadFile_mismatch s3 file fileId userId actual hs hne
  unfold uploadSingle
  rw [h]
  exact ⟨rfl, rfl, ⟨_, rfl⟩, rfl, rfl⟩

/-- Witness for C7: the atomicity conclusion evaluated at `fakePng` on the
empty object store and a one-record index. -/
theorem uploadSingle_validation_atomic_witness :
    (uploadSingle emptyS3 oneRecordFS fakePng "id9" "u" 0).1 = emptyS3 ∧
    (uploadSingle emptyS3 oneRecordFS fakePng "id9" "u" 0).2.1 = oneRecordFS ∧
    (∃ e, (uploadSingle emptyS3 oneRecordFS fakePng "id9" "u" 0).2.2 = .error e) ∧
    statsTotalFiles (uploadSingle emptyS3 oneRecordFS fakePng "id9" "u" 0).2.1
      = statsTotalFiles oneRecordFS ∧
    statsTotalSize (uploadSingle emptyS3 oneRecordFS fakePng "id9" "u" 0).2.1
      = statsTotalSize oneRecordFS :=
  uploadSingle_validation_atomic emptyS3 oneRecordFS fakePng "id9" "u" 0
    "application/pdf" rfl (by decide)

/-! ### Batch accounting (uploadMultiple) -/

theorem uploadMultipleLoop_accounting (userId : String) (now : Nat) :
    ∀ (files : List (UploadedFile × String)) (s3 : S3State) (fs : FileServiceState)
      (s3' : S3State) (fs' : FileServiceState)
      (up : List UploadedItem) (fl : List FailedItem),
      uploadMultipleLoop userId now s3 fs files = (s3', fs', up, fl) →
      up.length + fl.length = files.length
      ∧ (up.map (·.filename) ++ fl.map (·.filename)).Perm
          (files.map (fun p => p.1.originalname))
  | [], s3, fs, s3', fs', up, fl => by
      intro h
      simp only [uploadMultipleLoop, Prod.mk.injEq] at h
      obtain ⟨-, -, h3, h4⟩ := h
      subst h3; subst h4
      simp
  | (file, fileId) :: rest, s3, fs, s3', fs', up, fl => by
      intro h
      cases huf : uploadFile s3 file fileId userId with
      | ok r =>
          simp only [uploadMultipleLoop, huf, Prod.mk.injEq] at h
          obtain ⟨-, -, h3, h4⟩ := h
          obtain ⟨ih1, ih2⟩ := uploadMultipleLoop_accounting userId now rest r.1
            (saveFileMetadata fs (controllerMetadata file fileId r.2 userId now) now).1
            _ _ _ _ rfl
          subst h3; subst h4
          refine ⟨by simpa using by omega, ?_⟩
          simpa using ih2.cons file.originalname
      | error e =>
          simp only [uploadMultipleLoop, huf, Prod.mk.injEq] at h
          obtain ⟨-, -, h3, h4⟩ := h
          obtain ⟨ih1, ih2⟩ := uploadMultipleLoop_accounting userId now rest s3 fs
            _ _ _ _ rfl
          subst h3; subst h4
          refine ⟨by simpa using by omega, ?_⟩
          simpa using List.perm_middle.trans (ih2.cons file.originalname)

/-- C5: for every non-empty batch of N files, `uploadMultiple` succeeds with
`summary.total = N`, `successful + failed = N` (`successful`/`failed` being
the lengths of the `uploaded`/`failed` lists), and the filenames of the two
lists together are a permutation of the input filenames — every input file
lands in exactly one list, so one file's failure does not abort the rest. -/
theorem uploadMultiple_batch_accounting (s3 : S3State) (fs : FileServiceState)
    (files : List (UploadedFile × String)) (userId : String) (now : Nat)
    (h : files ≠ []) :
    ∃ outcome, (uploadMultiple s3 fs files userId now).2.2 = .ok outcome ∧
      outcome.summary.total = files.length ∧
      outcome.summary.successful = outcome.uploaded.length ∧
      outcome.summary.failed = outcome.failed.length ∧
      outcome.summary.successful + outcome.summary.failed = files.length ∧
      (outcome.uploaded.map (·.filename)
          ++ outcome.failed.map (·.filename)).Perm
        (files.map (fun p => p.1.originalname)) := by
  have hne : files.isEmpty = false := by
    cases files with
    | nil => exact absurd rfl h
    | cons a l => rfl
  have acc := uploadMultipleLoop_accounting userId now files s3 fs _ _ _ _ rfl
  unfold uploadMultiple
  rw [hne]
  exact ⟨_, rfl, rfl, rfl, rfl, acc.1, acc.2⟩

/-- Witness for C5: a two-file batch in which the first file is valid and the
second fails type validation; the accounting conclusion holds for it. -/
theorem uploadMultiple_batch_accounting_witness :
    ([(goodPng, "id1"), (fakePng, "id2")] : List (UploadedFile × String)) ≠ [] ∧
    (∃ outcome,
      (uploadMultiple emptyS3 emptyFS [(goodPng, "id1"), (fakePng, "id2")] "u" 0).2.2
        = .ok outcome ∧
      outcome.summary.total = [(goodPng, "id1"), (fakePng, "id2")].length ∧
      outcome.summary.successful = outcome.uploaded.length ∧
      outcome.summary.failed = outcome.failed.length ∧
      outcome.summary.successful + outcome.summary.failed
        = [(goodPng, "id1"), (fakePng, "id2")].length ∧
      (outcome.uploaded.map (·.filename)
          ++ outcome.failed.map (·.filename)).Perm
        ([(goodPng, "id1"), (fakePng, "id2")].map (fun p => p.1.originalname))) :=
  ⟨by decide,
   uploadMultiple_batch_accounting emptyS3 emptyFS
     [(goodPng, "id1"), (fakePng, "id2")] "u" 0 (by decide)⟩

/-! ### Sorting lemmas for listFiles -/

theorem uploadedDescLE_trans (a b c : FileRecord) :
    uploadedDescLE a b → uploadedDescLE b c → uploadedDescLE a c := by
  simp only [uploadedDescLE, decide_eq_true_eq]
  omega

theorem uploadedDescLE_total (a b : FileRecord) :
    uploadedDescLE a b || uploadedDescLE b a := by
  simp only [uploadedDescLE, Bool.or_eq_true, decide_eq_true_eq]
  omega

theorem sortFiles_perm (l : List FileRecord) : (sortFiles l).Perm l :=
  List.mergeSort_perm l uploadedDescLE

theorem sortFiles_sorted (l : List FileRecord) :
    (sortFiles l).Pairwise (fun a b => uploadedDescLE a b = true) := by
  simpa using List.sorted_mergeSort uploadedDescLE_trans uploadedDescLE_total l

/-- Stability: within one `uploadedAt` value, the sort preserves the input
(insertion) order — the tied elements appear exactly as they do in the
unsorted list. -/
theorem sortFiles_stable (l : List FileRecord) (t : Nat) :
    (sortFiles l).filter (fun f => f.uploadedAt == t)
      = l.filter (fun f => f.uploadedAt == t) := by
  have hpw : (l.filter (fun f => f.uploadedAt == t)).Pairwise
      (fun a b => uploadedDescLE a b = true) := by
    apply List.pairwise_of_forall_mem_list
    intro a ha b hb
    have ha' := (List.mem_filter.mp ha).2
    have hb' := (List.mem_filter.mp hb).2
    simp only [beq_iff_eq] at ha' hb'
    simp [uploadedDescLE, ha', hb']
  have hsl : List.Sublist (l.filter (fun f => f.uploadedAt == t)) (sortFiles l) :=
    List.sublist_mergeSort uploadedDescLE_trans uploadedDescLE_total hpw
      (List.filter_sublist l)
  have h2 : List.Sublist (l.filter (fun f => f.uploadedAt == t))
      ((sortFiles l).filter (fun f => f.uploadedAt == t)) := by
    have h1 : (l.filter (fun f => f.uploadedAt == t)).filter
        (fun f => f.uploadedAt == t) = l.filter (fun f => f.uploadedAt == t) := by
      rw [List.filter_filter]
      exact List.filter_congr (fun a _ => by cases h : a.uploadedAt == t <;> simp [h])
    have := hsl.filter (fun f => f.uploadedAt == t)
    rwa [h1] at this
  have hperm : ((sortFiles l).filter (fun f => f.uploadedAt == t)).Perm
      (l.filter (fun f => f.uploadedAt == t)) :=
    (sortFiles_perm l).filter (fun f => f.uploadedAt == t)
  exact (h2.eq_of_length hperm.length_eq.symm).symm

/-! ### Pagination arithmetic -/

/-- `(T + L - 1) / L` is exactly `Math.ceil(T / L)` for positive `L`. -/
theorem ceil_div_spec (T L : Nat) (hL : 0 < L) :
    (T + L - 1) / L = T / L + (if T % L = 0 then 0 else 1) := by
  have hqr := Nat.div_add_mod T L
  have hrL : T % L < L := Nat.mod_lt _ hL
  by_cases hr : T % L = 0
  · have hT' : T + L - 1 = (L - 1) + L * (T / L) := by omega
    rw [hT', Nat.add_mul_div_left _ _ hL, Nat.div_eq_of_lt (by omega), hr]
    simp
  · have hm : L * (T / L + 1) = L * (T / L) + L := by rw [Nat.mul_succ]
    have hT' : T + L - 1 = (T % L - 1) + L * (T / L + 1) := by omega
    rw [hT', Nat.add_mul_div_left _ _ hL, Nat.div_eq_of_lt (by omega)]
    simp [hr]

theorem le_ceil_mul (T L : Nat) (hL : 0 < L) :
    T ≤ ((T + L - 1) / L) * L := by
  have h := Nat.lt_div_mul_add (a := T + L - 1) hL
  omega

/-! ### Paging a list reassembles it -/

theorem flatten_chunks {α : Type _} (L : Nat) (hL : 0 < L) :
    ∀ (n : Nat) (l : List α), l.length ≤ n →
      ((List.range ((l.length + L - 1) / L)).map
          (fun i => (l.drop (i * L)).take L)).flatten = l
  | 0, l, h => by
      have hnil : l = [] := List.eq_nil_of_length_eq_zero (Nat.le_zero.mp h)
      subst hnil
      simp [Nat.div_eq_of_lt (show 0 + L - 1 < L by omega)]
  | n + 1, l, h => by
      rcases Nat.eq_zero_or_pos l.length with h0 | h0
      · have hnil : l = [] := List.eq_nil_of_length_eq_zero h0
        subst hnil
        simp [Nat.div_eq_of_lt (show 0 + L - 1 < L by omega)]
      · have hpages : (l.length + L - 1) / L
            = (((l.drop L).length + L - 1) / L) + 1 := by
          rw [List.length_drop]
          by_cases hle : l.length ≤ L
          · have h1 : l.length - L = 0 := by omega
            rw [h1, Nat.div_eq_of_lt (show 0 + L - 1 < L by omega)]
            exact Nat.div_eq_of_lt_le (by omega) (by omega)
          · have h3 : l.length + L - 1 = (l.length - L + L - 1) + L := by omega
            rw [h3, Nat.add_div_right _ hL]
        rw [hpages, List.range_succ_eq_map]
        simp only [List.map_cons, List.map_map, List.flatten_cons, Nat.zero_mul,
          List.drop_zero]
        have hrec :
            (List.range (((l.drop L).length + L - 1) / L)).map
                ((fun i => (l.drop (i * L)).take L) ∘ Nat.succ)
              = (List.range (((l.drop L).length + L - 1) / L)).map
                (fun i => ((l.drop L).drop (i * L)).take L) := by
          apply List.map_congr_left
          intro i _
          simp only [Function.comp]
          rw [List.drop_drop]
          congr 2
          rw [Nat.succ_mul]
          omega
        rw [hrec, flatten_chunks L hL n (l.drop L)
          (by rw [List.length_drop]; omega)]
        exact List.take_append_drop L l

/-- C6: `listFiles` pagination correctness, for any index state, filter
combination, page `p ≥ 0` and limit `L ≥ 1`: `total` is the post-filter
count; `pages = ceil(total / L)`; `hasNext = p < pages`; `hasPrev = p > 1`;
a page beyond range yields an empty item list (not an error — the function is
total); page `p` is the `L`-sized slice starting at `(p-1)·L` of the filtered
list sorted by `uploadedAt` descending (stably, so ties keep insertion
order); and concatenating pages `1..pages` reproduces the whole filtered
sorted list exactly once each. -/
theorem listFiles_pagination (st : FileServiceState)
    (type? search? : Option String) (p L : Nat) (hL : 0 < L) :
    (listFiles st p L type? search?).total
      = (visibleFiles st type? search?).length ∧
    (listFiles st p L type? search?).pages
      = (listFiles st p L type? search?).total / L
        + (if (listFiles st p L type? search?).total % L = 0 then 0 else 1) ∧
    (listFiles st p L type? search?).hasNext
      = decide (p < (listFiles st p L type? search?).pages) ∧
    (listFiles st p L type? search?).hasPrev = decide (1 < p) ∧
    ((listFiles st p L type? search?).pages < p →
      (listFiles st p L type? search?).files = []) ∧
    (listFiles st p L type? search?).files
      = (((visibleFiles st type? search?).drop ((p - 1) * L)).take L).map
          toListItem ∧
    ((List.range (listFiles st p L type? search?).pages).map
        (fun i => (listFiles st (i + 1) L type? search?).files)).flatten
      = (visibleFiles st type? search?).map toListItem ∧
    (visibleFiles st type? search?).Pairwise
      (fun a b => uploadedDescLE a b = true) ∧
    (∀ t : Nat,
      (visibleFiles st type? search?).filter (fun f => f.uploadedAt == t)
        = (filterFiles (st.files.map (·.2)) type? search?).filter
            (fun f => f.uploadedAt == t)) ∧
    (visibleFiles st type? search?).Perm
      (filterFiles (st.files.map (·.2)) type? search?) := by
  refine ⟨rfl, ceil_div_spec (visibleFiles st type? search?).length L hL,
    rfl, rfl, ?_, rfl, ?_, ?_, ?_, ?_⟩
  · intro hp
    have h1 : (visibleFiles st type? search?).length
        ≤ (listFiles st p L type? search?).pages * L :=
      le_ceil_mul (visibleFiles st type? search?).length L hL
    have h2 : (listFiles st p L type? search?).pages * L ≤ (p - 1) * L :=
      Nat.mul_le_mul_right L (by omega)
    show (((visibleFiles st type? search?).drop ((p - 1) * L)).take L).map
        toListItem = []
    rw [List.drop_eq_nil_of_le (by omega)]
    simp
  · have h := flatten_chunks L hL (visibleFiles st type? search?).length
      (visibleFiles st type? search?) (Nat.le_refl _)
    show ((List.range (((visibleFiles st type? search?).length + L - 1) / L)).map
        (fun i =>
          (((visibleFiles st type? search?).drop (i * L)).take L).map
            toListItem)).flatten
      = (visibleFiles st type? search?).map toListItem
    conv_rhs => rw [← h]
    rw [List.map_flatten, List.map_map]
    rfl
  · exact sortFiles_sorted _
  · exact fun t => sortFiles_stable _ t
  · exact sortFiles_perm _

/-- Witness for C6: the pagination conclusion evaluated at the three-record
index with no filters, page 1, limit 2. -/
theorem listFiles_pagination_witness :
    0 < 2 ∧
    ((listFiles threeRecordFS 1 2 none none).total
      = (visibleFiles threeRecordFS none none).length ∧
    (listFiles threeRecordFS 1 2 none none).pages
      = (listFiles threeRecordFS 1 2 none none).total / 2
        + (if (listFiles threeRecordFS 1 2 none none).total % 2 = 0 then 0 else 1) ∧
    (listFiles threeRecordFS 1 2 none none).hasNext
      = decide (1 < (listFiles threeRecordFS 1 2 none none).pages) ∧
    (listFiles threeRecordFS 1 2 none none).hasPrev = decide (1 < 1) ∧
    ((listFiles threeRecordFS 1 2 none none).pages < 1 →
      (listFiles threeRecordFS 1 2 none none).files = []) ∧
    (listFiles threeRecordFS 1 2 none none).files
      = (((visibleFiles threeRecordFS none none).drop ((1 - 1) * 2)).take 2).map
          toListItem ∧
    ((List.range (listFiles threeRecordFS 1 2 none none).pages).map
        (fun i => (listFiles threeRecordFS (i + 1) 2 none none).files)).flatten
      = (visibleFiles threeRecordFS none none).map toListItem ∧
    (visibleFiles threeRecordFS none none).Pairwise
      (fun a b => uploadedDescLE a b = true) ∧
    (∀ t : Nat,
      (visibleFiles threeRecordFS none none).filter (fun f => f.uploadedAt == t)
        = (filterFiles (threeRecordFS.files.map (·.2)) none none).filter
            (fun f => f.uploadedAt == t)) ∧
    (visibleFiles threeRecordFS none none).Perm
      (filterFiles (threeRecordFS.files.map (·.2)) none none)) :=
  ⟨by decide, listFiles_pagination threeRecordFS none none 1 2 (by decide)⟩

end S3UploadShare
